import Mathlib

/-!
Shallow embedding of the geometric detection pipeline of the IEarLM
repository (backend/api-server-yolov7seg/server): the ROI locator and crop
logic of `crop_module.py` and the detection post-processing and coordinate
back-mapping of `detect_module.py`.

External library calls (OpenCV contour extraction and Otsu thresholding, the
torch network forward pass, the YOLOv7 `non_max_suppression` utility, and the
per-candidate torch mask decoding) are treated as opaque collaborators: their
results enter the embedded functions as parameters.  Everything downstream of
those calls is translated statement-by-statement from the Python source.

Numeric conventions: Python floats that only undergo additions of integer
offsets are modelled as rationals (the operations involved are exact);
pixel indices and crop coordinates are integers; grid sizes are naturals.
-/

namespace IEarLM

/-- A binary mask as produced by `mask.tolist()` in `detect_module.py`:
a list of rows, each row a list of 0/1 values. -/
abbrev Mask := List (List Nat)

/-- Number of rows of a mask (`mask.shape[0]`). -/
def maskH (m : Mask) : Nat := m.length

/-- Number of columns of a mask (`mask.shape[1]`; masks coming from numpy
arrays are rectangular, so the first row is representative). -/
def maskW (m : Mask) : Nat := (m.headD []).length

/-- Entry of a mask at row `r`, column `c` (0 outside the stored extent). -/
def maskGet (m : Mask) (r c : Nat) : Nat := (m.getD r []).getD c 0

/-- An axis-aligned bounding box `[x1, y1, x2, y2]` as stored in a
detection dictionary (`detect_module.py` line 176). -/
structure BBox where
  x1 : ℚ
  y1 : ℚ
  x2 : ℚ
  y2 : ℚ
deriving DecidableEq

/-- One detection dictionary as built in `YOLOv7Detector.detect`
(`detect_module.py` lines 175-205): `bbox`, `confidence`, `class_id`,
`class_name`, and an optional `mask` (absent both when the model has no mask
head and when mask decoding raised). -/
structure Detection where
  bbox : BBox
  confidence : ℚ
  class_id : Nat
  class_name : String
  mask : Option Mask
deriving DecidableEq

/-- The `crop_info` dictionary returned by
`crop_module.crop_image_by_circle`: `success`, `center`, `radius`,
`crop_coords` (None on failure), `original_shape` `(h, w)` and
`cropped_shape` `(h, w)` (None on failure). -/
structure CropInfo where
  success : Bool
  center : Int × Int
  radius : Int
  crop_coords : Option (Int × Int × Int × Int)
  original_shape : Option (Nat × Nat)
  cropped_shape : Option (Nat × Nat)
deriving DecidableEq

/-! ### crop_module.py -/

/-- `TARGET_SIZE = 1080` (`crop_module.py` line 12). -/
def TARGET_SIZE : Int := 1080

/-- `HALF_TARGET_SIZE = TARGET_SIZE // 2` (`crop_module.py` line 13). -/
def HALF_TARGET_SIZE : Int := TARGET_SIZE / 2

/-- `MIN_RADIUS_FILTER = 200` (`crop_module.py` line 14). -/
def MIN_RADIUS_FILTER : Int := 200

/-- The data OpenCV computes for one external contour of the binarized
image: `cv2.contourArea` and the centre and radius of
`cv2.minEnclosingCircle` after the `int(...)` conversions of
`crop_module.py` lines 55-57.  The OpenCV calls themselves are external
collaborators; their per-contour results are the inputs of the embedding. -/
structure ContourData where
  area : ℚ
  cx : Int
  cy : Int
  r : Int
deriving DecidableEq

/-- `detect_circle_by_contours_otsu` (`crop_module.py` lines 17-62),
parameterised by the list of contours found by `cv2.findContours` together
with their OpenCV measurements.  Returns `(success, center, radius)`; the
debug image and threshold outputs carry no geometric content and are
omitted.  If no contour is found the function returns
`(False, (0, 0), 0)` (lines 48-49); otherwise it picks the contour of
largest area (`max(contours, key=cv2.contourArea)`, which returns the first
maximal element) and reports its minimal enclosing circle. -/
def detect_circle_by_contours_otsu (contours : List ContourData) :
    Bool × (Int × Int) × Int :=
  match contours with
  | [] => (false, (0, 0), 0)
  | c :: rest =>
    let largest := rest.foldl (fun a b => if a.area < b.area then b else a) c
    (true, (largest.cx, largest.cy), largest.r)

/-- `crop_image_by_circle` (`crop_module.py` lines 65-118), restricted to the
`crop_info` dictionary it returns (the cropped pixel buffer itself is the
numpy slice `img[0:original_h, start_x:end_x]`, whose shape
`(original_h, end_x - start_x)` is what `cropped_shape` records).  `W`, `H`
are the original image's width and height (`img.shape[:2] = (H, W)`). -/
def crop_image_by_circle (W H : Nat) (contours : List ContourData) : CropInfo :=
  let res := detect_circle_by_contours_otsu contours
  let success := res.1
  let cx := res.2.1.1
  let cy := res.2.1.2
  let r := res.2.2
  if !success || r < MIN_RADIUS_FILTER then
    { success := false
      center := if success then (cx, cy) else (0, 0)
      radius := r
      crop_coords := none
      original_shape := some (H, W)
      cropped_shape := none }
  else
    let start_x := max 0 (cx - HALF_TARGET_SIZE)
    let end_x := min (W : Int) (cx + HALF_TARGET_SIZE)
    { success := true
      center := (cx, cy)
      radius := r
      crop_coords := some (start_x, 0, end_x, (H : Int))
      original_shape := some (H, W)
      cropped_shape := some (H, (end_x - start_x).toNat) }

/-- The clamp function as the specification words it:
`clamp(v, lo, hi) = min(hi, max(lo, v))`.  Stated separately from the source
translation so that the crop rectangle of `crop_image_by_circle` can be
compared against the spec's formula. -/
def specClamp (v lo hi : Int) : Int := min hi (max lo v)

/-! ### Point transforms between Cropped and Original space -/

/-- The Cropped → Original point transform of
`YOLOv7Detector.transform_coordinates` (`detect_module.py` lines 238-242):
each coordinate pair is translated by the crop offset
`(+crop_x1, +crop_y1)`. -/
def cropped_to_original (cx1 cy1 : Int) (p : ℚ × ℚ) : ℚ × ℚ :=
  (p.1 + (cx1 : ℚ), p.2 + (cy1 : ℚ))

/-- The Original → Cropped point transform implied by the crop slice
`img[0:original_h, start_x:end_x]` of `crop_module.py` line 106: original
pixel `(x, y)` with `start_x ≤ x < end_x` appears at `(x - start_x, y - 0)`
in the cropped buffer, i.e. a translation by `(-crop_x1, -crop_y1)`. -/
def original_to_cropped (cx1 cy1 : Int) (p : ℚ × ℚ) : ℚ × ℚ :=
  (p.1 - (cx1 : ℚ), p.2 - (cy1 : ℚ))

/-- The bbox translation of `detect_module.py` lines 238-243:
`[x1 + crop_x1, y1 + crop_y1, x2 + crop_x1, y2 + crop_y1]`, i.e. the
Cropped → Original point transform applied to both corners. -/
def transformBBox (cx1 cy1 : Int) (b : BBox) : BBox :=
  let p1 := cropped_to_original cx1 cy1 (b.x1, b.y1)
  let p2 := cropped_to_original cx1 cy1 (b.x2, b.y2)
  ⟨p1.1, p1.2, p2.1, p2.2⟩

/-! ### Mask resizing and placement (detect_module.py lines 246-274) -/

/-- Model of the external call
`cv2.resize(mask, (newW, newH), interpolation=cv2.INTER_NEAREST)`:
nearest-neighbour sampling, destination pixel `(r, c)` reads source pixel
`(min(r*h/newH, h-1), min(c*w/newW, w-1))`. -/
def nnResize (m : Mask) (newW newH : Nat) : Mask :=
  let h := maskH m
  let w := maskW m
  (List.range newH).map fun r =>
    (List.range newW).map fun c =>
      maskGet m (min (r * h / newH) (h - 1)) (min (c * w / newW) (w - 1))

/-- `np.zeros((oh, ow))` followed by the slice assignment
`canvas[y1:y1+maskH m, x1:x1+maskW m] = m` (`detect_module.py` lines 261
and 268/272), written as the grid it produces pointwise: the mask's entries
inside the assigned window, zero everywhere else. -/
def place_into_zeros (oh ow y1 x1 : Nat) (m : Mask) : Mask :=
  (List.range oh).map fun r =>
    (List.range ow).map fun c =>
      if y1 ≤ r ∧ r < y1 + maskH m ∧ x1 ≤ c ∧ c < x1 + maskW m then
        maskGet m (r - y1) (c - x1)
      else 0

/-- The full numpy placement step: the slice-assignment succeeds only when
the window lies inside the canvas with non-negative offsets (a negative
offset would wrap in numpy and an overflowing window makes the slice clip,
so the assignment raises `ValueError`; both are modelled as `none`).
Neither failure mode is reachable from `crop_image_by_circle`'s output. -/
def place_mask_np (oh ow : Nat) (y1 x1 : Int) (m : Mask) : Option Mask :=
  if 0 ≤ y1 ∧ 0 ≤ x1 ∧ y1.toNat + maskH m ≤ oh ∧ x1.toNat + maskW m ≤ ow then
    some (place_into_zeros oh ow y1.toNat x1.toNat m)
  else none

/-- The size-matching step of `detect_module.py` lines 266-271: keep the
mask as is when its stored size already equals `cropped_shape`, otherwise
resize it to `(crop_w, crop_h)` with nearest-neighbour interpolation before
placement. -/
def resizedIfNeeded (m : Mask) (ch cw : Nat) : Mask :=
  if maskH m = ch ∧ maskW m = cw then m else nnResize m cw ch

/-- The per-detection body of the `for det in detections` loop of
`YOLOv7Detector.transform_coordinates` (`detect_module.py` lines 232-277).
`new_det = det.copy()`; when `to_original` the bbox is translated by the
crop offset, and a present non-empty mask is placed into a zero-filled
Original-sized grid, after a nearest-neighbour resize to
`(crop_w, crop_h)` whenever its stored size differs from `cropped_shape`
(lines 266-272).  When `to_original` is false the detection is returned
unchanged.  `none` models an exception escaping the loop body. -/
def transformDet (cx1 cy1 : Int) (ci : CropInfo) (to_original : Bool)
    (det : Detection) : Option Detection :=
  if to_original then
    let newBbox := transformBBox cx1 cy1 det.bbox
    match det.mask with
    | none => some { det with bbox := newBbox }
    | some m =>
      if 0 < maskH m ∧ 0 < maskW m then
        match ci.original_shape, ci.cropped_shape with
        | some (oh, ow), some (ch, cw) =>
          match place_mask_np oh ow cy1 cx1 (resizedIfNeeded m ch cw) with
          | some placed => some { det with bbox := newBbox, mask := some placed }
          | none => none
        | _, _ => some { det with bbox := newBbox }
      else some { det with bbox := newBbox }
  else some det

/-- The `for` loop of `transform_coordinates` appending one transformed
detection per input detection; an exception in any iteration aborts the
whole call (`none`). -/
def traverseDet (f : Detection → Option Detection) :
    List Detection → Option (List Detection)
  | [] => some []
  | d :: rest =>
    match f d, traverseDet f rest with
    | some d2, some r2 => some (d2 :: r2)
    | _, _ => none

/-- `YOLOv7Detector.transform_coordinates` (`detect_module.py` lines
209-279).  Returns the input list unchanged when `crop_info` does not claim
success (line 226-227); otherwise unpacks `crop_coords` (unpacking `None`
raises, modelled as `none`) and maps every detection through the loop
body. -/
def transform_coordinates (detections : List Detection) (ci : CropInfo)
    (to_original : Bool) : Option (List Detection) :=
  if ci.success = false then some detections
  else
    match ci.crop_coords with
    | none => none
    | some (cx1, cy1, _, _) =>
      traverseDet (transformDet cx1 cy1 ci to_original) detections

/-! ### Detection post-processing (detect_module.py lines 109-207) -/

/-- `CLASS_ORDER` (`detect_module.py` lines 41-46). -/
def CLASS_ORDER : List String :=
  ["eardrum_perforation", "atresia", "atrophic_scar", "blood_clot", "cerumen",
   "foreign_body", "middle_ear_effusion", "middle_ear_tumor", "otitis_externa",
   "otomycosis", "retraction", "tympanosclerosis", "ventilation_tube",
   "otitis_media", "tympanoplasty", "EAC_tumor", "myringitis", "normal"]

/-- Class-name lookup of `detect_module.py` lines 170-173: index into
`CLASS_ORDER`, falling back to the synthetic name `class_<id>`. -/
def className (cls_id : Nat) : String :=
  if h : cls_id < CLASS_ORDER.length then CLASS_ORDER.get ⟨cls_id, h⟩
  else "class_" ++ toString cls_id

/-- One row of `det_cpu` in `YOLOv7Detector.detect` (line 158): a candidate
that survived non-max suppression, with its box already rescaled by
`scale_coords` (line 155), its confidence and its class index
(`int(cls_id)`; class indices emitted by the network are non-negative). -/
structure Candidate where
  x1 : ℚ
  y1 : ℚ
  x2 : ℚ
  y2 : ℚ
  conf : ℚ
  cls : Nat
deriving DecidableEq

/-- The detection dictionary assembled for one surviving candidate
(`detect_module.py` lines 175-201): the outcome of the `try` block around
the torch mask decoding (`process_mask` / `scale_masks`, external) enters
as `mo` — `none` both when there is no mask head and when the block
raised (line 202-203: the exception is caught, the mask key is simply not
set, and the candidate is still appended). -/
def mkDetection (c : Candidate) (mo : Option Mask) : Detection :=
  { bbox := ⟨c.x1, c.y1, c.x2, c.y2⟩
    confidence := c.conf
    class_id := c.cls
    class_name := className c.cls
    mask := mo }

/-- The `for i in range(len(det_cpu))` loop of `YOLOv7Detector.detect`
(lines 160-205): a candidate with `conf < conf_thres` is skipped
(`continue`, line 166-167); every other candidate is appended with its
class name and its (possibly failed) mask-decoding outcome. -/
def buildDetections (conf_thres : ℚ) :
    List (Candidate × Option Mask) → List Detection
  | [] => []
  | (c, mo) :: rest =>
    if c.conf < conf_thres then buildDetections conf_thres rest
    else mkDetection c mo :: buildDetections conf_thres rest

/-- `YOLOv7Detector.detect` (lines 109-207) after the external model
forward pass: `nms` abstracts the call
`non_max_suppression(pred, vis_conf_thres, iou_thres, agnostic=True, nm=nm)`
(line 146) composed with `scale_coords` and the per-candidate mask-decoding
outcome — it receives the confidence threshold and the IoU threshold that
the source passes to it and returns the surviving candidates in NMS output
order.  The caller-supplied `conf_thres` only enters afterwards, in the
final filter of `buildDetections`. -/
def detect (nms : ℚ → ℚ → List (Candidate × Option Mask))
    (conf_thres iou_thres vis_conf_thres : ℚ) : List Detection :=
  buildDetections conf_thres (nms vis_conf_thres iou_thres)

/-! ### Helper lemmas -/

theorem getD_range_map {α : Type} {n i : Nat} (f : Nat → α) (d : α)
    (h : i < n) : ((List.range n).map f).getD i d = f i := by
  rw [List.getD_eq_getElem?_getD, List.getElem?_map, List.getElem?_range h]
  rfl

theorem traverseDet_spec (f : Detection → Option Detection) :
    ∀ (l out : List Detection), traverseDet f l = some out →
      out.length = l.length ∧ ∀ i : Nat, out[i]? = (l[i]?).bind f := by
  intro l
  induction l with
  | nil =>
    intro out h
    simp only [traverseDet, Option.some.injEq] at h
    subst h
    simp
  | cons d rest ih =>
    intro out h
    simp only [traverseDet] at h
    cases hf : f d with
    | none => rw [hf] at h; exact absurd h (by simp)
    | some d2 =>
      rw [hf] at h
      cases ht : traverseDet f rest with
      | none => rw [ht] at h; exact absurd h (by simp)
      | some r2 =>
        rw [ht] at h
        simp only [Option.some.injEq] at h
        subst h
        obtain ⟨hlen, hget⟩ := ih r2 ht
        refine ⟨by simp [hlen], ?_⟩
        intro i
        cases i with
        | zero => simp [hf]
        | succ j => simpa using hget j

theorem transformDet_false (cx1 cy1 : Int) (ci : CropInfo) (det : Detection) :
    transformDet cx1 cy1 ci false det = some det := rfl

theorem transformDet_fields (cx1 cy1 : Int) (ci : CropInfo)
    (det det' : Detection) (h : transformDet cx1 cy1 ci true det = some det') :
    det'.bbox = transformBBox cx1 cy1 det.bbox ∧
    det'.confidence = det.confidence ∧
    det'.class_id = det.class_id ∧
    det'.class_name = det.class_name := by
  simp only [transformDet, if_pos] at h
  repeat' split at h
  all_goals
    first
    | (simp only [Option.some.injEq] at h; subst h; exact ⟨rfl, rfl, rfl, rfl⟩)
    | exact absurd h (by simp)

/-! ### Claim theorems -/

/-- Claim C1: when the ROI locator finds a circle of radius at least
`MIN_RADIUS_FILTER` (200 px) centred at `(cx, cy)` inside a `W`-wide,
`H`-high image, the returned crop rectangle is
`(clamp(cx - 540, 0, W), 0, clamp(cx + 540, 0, W), H)`; in particular the
whole image height is kept.  The centre of the minimal enclosing circle of
a contour of the image lies inside the image, whence `0 ≤ cx ≤ W`. -/
theorem C1_crop_rect_clamp (W H : Nat) (contours : List ContourData)
    (cx cy r : Int)
    (hdet : detect_circle_by_contours_otsu contours = (true, (cx, cy), r))
    (hr : MIN_RADIUS_FILTER ≤ r) (hcx0 : 0 ≤ cx) (hcxW : cx ≤ (W : Int)) :
    (crop_image_by_circle W H contours).crop_coords =
      some (specClamp (cx - HALF_TARGET_SIZE) 0 (W : Int), 0,
            specClamp (cx + HALF_TARGET_SIZE) 0 (W : Int), (H : Int)) := by
  have hr' : (200 : Int) ≤ r := hr
  have h540 : HALF_TARGET_SIZE = 540 := rfl
  simp only [crop_image_by_circle, hdet]
  rw [if_neg (by simp only [Bool.not_true, Bool.false_or, decide_eq_true_eq,
    MIN_RADIUS_FILTER]; omega)]
  simp only [Option.some.injEq, Prod.mk.injEq, specClamp]
  refine ⟨?_, ?_, ?_, ?_⟩ <;> first | trivial | (rw [h540]; omega)

/-- Witness for C1: a circle of radius 300 centred at `(600, 540)` in a
1600×1080 image yields the crop rectangle `(60, 0, 1140, 1080)`. -/
theorem C1_crop_rect_clamp_witness :
    (crop_image_by_circle 1600 1080 [⟨1, 600, 540, 300⟩]).crop_coords =
      some (60, 0, 1140, 1080) := by
  have h := C1_crop_rect_clamp 1600 1080 [⟨1, 600, 540, 300⟩] 600 540 300
    rfl (by decide) (by decide) (by decide)
  simpa [specClamp, HALF_TARGET_SIZE, TARGET_SIZE] using h

/-- Claim C4: the ROI locator is a total function of its inputs (the
embedding below returns a `CropInfo` for every contour list), and both
failure modes — no contour found, or a minimal enclosing circle of radius
below `MIN_RADIUS_FILTER` — are reported as `success = false` with no crop
rectangle, rather than as an exception. -/
theorem C4_roi_failure_reports_false (W H : Nat)
    (contours : List ContourData) :
    (contours = [] →
      (crop_image_by_circle W H contours).success = false ∧
      (crop_image_by_circle W H contours).crop_coords = none) ∧
    ((detect_circle_by_contours_otsu contours).2.2 < MIN_RADIUS_FILTER →
      (crop_image_by_circle W H contours).success = false ∧
      (crop_image_by_circle W H contours).crop_coords = none) := by
  constructor
  · rintro rfl
    simp [crop_image_by_circle, detect_circle_by_contours_otsu]
  · intro hr
    simp only [crop_image_by_circle]
    rw [if_pos (by simp [hr])]
    exact ⟨rfl, rfl⟩

/-- Witness for C4: an empty contour list, and a contour whose enclosing
circle has radius 50 < 200, both yield `success = false`. -/
theorem C4_roi_failure_reports_false_witness :
    (crop_image_by_circle 1600 1080 ([] : List ContourData)).success = false ∧
    (crop_image_by_circle 1600 1080 [⟨1, 600, 540, 50⟩]).success = false :=
  ⟨((C4_roi_failure_reports_false 1600 1080 []).1 rfl).1,
   ((C4_roi_failure_reports_false 1600 1080 [⟨1, 600, 540, 50⟩]).2
      (by decide)).1⟩

/-- Claim C8: the Original → Cropped transform (translation by
`(-crop_x1, -crop_y1)`) composed with the Cropped → Original transform
(translation by `(+crop_x1, +crop_y1)`) is the identity on every point —
in particular the round-trip error is at most 0.5 px in each coordinate. -/
theorem C8_roundtrip_identity (cx1 cy1 : Int) (p : ℚ × ℚ) :
    cropped_to_original cx1 cy1 (original_to_cropped cx1 cy1 p) = p ∧
    |(cropped_to_original cx1 cy1 (original_to_cropped cx1 cy1 p)).1 - p.1|
      ≤ 1 / 2 ∧
    |(cropped_to_original cx1 cy1 (original_to_cropped cx1 cy1 p)).2 - p.2|
      ≤ 1 / 2 := by
  have h : cropped_to_original cx1 cy1 (original_to_cropped cx1 cy1 p) = p := by
    simp [cropped_to_original, original_to_cropped]
  refine ⟨h, ?_, ?_⟩ <;> rw [h] <;> simp

theorem mem_of_getElem?_eq_some {α : Type} {l : List α} {i : Nat} {a : α}
    (h : l[i]? = some a) : a ∈ l := by
  obtain ⟨hi, rfl⟩ := List.getElem?_eq_some.mp h
  exact List.getElem_mem hi

/-- A sample detection in Cropped space, used by the concrete witnesses. -/
def sampleDet : Detection :=
  ⟨⟨0, 0, 10, 10⟩, 9/10, 0, "eardrum_perforation", none⟩

/-- `sampleDet` after the Cropped → Original translation by `(60, 0)`. -/
def sampleDetShift : Detection :=
  ⟨⟨60, 0, 70, 10⟩, 9/10, 0, "eardrum_perforation", none⟩

/-- The `crop_info` produced for a circle of radius 300 centred at
`(600, 540)` in a 1600×1080 image. -/
def sampleCropInfo : CropInfo :=
  ⟨true, (600, 540), 300, some (60, 0, 1140, 1080),
   some (1080, 1600), some (1080, 1080)⟩

/-- A failed `crop_info` (`success = false`). -/
def sampleCropFail : CropInfo :=
  ⟨false, (0, 0), 0, none, some (1080, 1600), none⟩

theorem sample_transform_eq :
    transform_coordinates [sampleDet] sampleCropInfo true =
      some [sampleDetShift] := by
  simp only [transform_coordinates, sampleCropInfo, sampleDet, sampleDetShift,
    traverseDet, transformDet, transformBBox, cropped_to_original]
  norm_num

theorem sample_transform_shift_eq :
    transform_coordinates [sampleDetShift] sampleCropInfo true =
      some [⟨⟨120, 0, 130, 10⟩, 9/10, 0, "eardrum_perforation", none⟩] := by
  simp only [transform_coordinates, sampleCropInfo, sampleDetShift,
    traverseDet, transformDet, transformBBox, cropped_to_original]
  norm_num

theorem transform_bbox_map (dets : List Detection) (ci : CropInfo)
    (cx1 cy1 cx2 cy2 : Int) (out : List Detection)
    (hs : ci.success = true) (hc : ci.crop_coords = some (cx1, cy1, cx2, cy2))
    (ht : transform_coordinates dets ci true = some out) (i : Nat) :
    (out[i]?).map Detection.bbox =
      (dets[i]?).map (fun d => transformBBox cx1 cy1 d.bbox) := by
  rw [transform_coordinates, if_neg (by simp [hs]), hc] at ht
  obtain ⟨hlen, hget⟩ :=
    traverseDet_spec (transformDet cx1 cy1 ci true) dets out ht
  cases hd : dets[i]? with
  | none =>
    have hi : dets.length ≤ i := by
      by_contra hlt
      rw [List.getElem?_eq_getElem (by omega)] at hd
      exact absurd hd (by simp)
    rw [hget i, hd]
    rfl
  | some d =>
    have hi : i < dets.length := (List.getElem?_eq_some.mp hd).1
    have hout : out[i]? = transformDet cx1 cy1 ci true d := by
      rw [hget i, hd]; rfl
    cases hfd : transformDet cx1 cy1 ci true d with
    | none =>
      rw [hfd] at hout
      rw [List.getElem?_eq_getElem (by omega : i < out.length)] at hout
      exact absurd hout (by simp)
    | some d2 =>
      rw [hfd] at hout
      obtain ⟨hb, _, _, _⟩ := transformDet_fields cx1 cy1 ci d d2 hfd
      rw [hout]
      simp [hb]

/-- Claim C3: mapping Cropped space to Original space translates each
bounding box's two corners by `(+crop_x1, +crop_y1)` (that is what
`transformBBox` does, corner by corner, via `cropped_to_original`), and
when the ROI locator reported `success = false` the mapping is the
identity: the detection list is returned unchanged. -/
theorem C3_translate_or_identity (dets : List Detection) (ci : CropInfo) :
    (ci.success = false → transform_coordinates dets ci true = some dets) ∧
    (∀ (cx1 cy1 cx2 cy2 : Int) (out : List Detection),
      ci.success = true → ci.crop_coords = some (cx1, cy1, cx2, cy2) →
      transform_coordinates dets ci true = some out →
      ∀ i : Nat, (out[i]?).map Detection.bbox =
        (dets[i]?).map (fun d => transformBBox cx1 cy1 d.bbox)) := by
  constructor
  · intro hs
    simp [transform_coordinates, hs]
  · intro cx1 cy1 cx2 cy2 out hs hc ht i
    exact transform_bbox_map dets ci cx1 cy1 cx2 cy2 out hs hc ht i

/-- Witness for C3: with the crop rectangle `(60, 0, 1140, 1080)` the box
`[0, 0, 10, 10]` is translated to `[60, 0, 70, 10]`; with
`success = false` the list is returned untouched. -/
theorem C3_translate_or_identity_witness :
    (transform_coordinates [sampleDet] sampleCropFail true =
      some [sampleDet]) ∧
    ((([sampleDetShift] : List Detection)[0]?).map Detection.bbox =
      (([sampleDet] : List Detection)[0]?).map
        (fun d => transformBBox 60 0 d.bbox)) :=
  ⟨(C3_translate_or_identity [sampleDet] sampleCropFail).1 rfl,
   (C3_translate_or_identity [sampleDet] sampleCropInfo).2 60 0 1140 1080
     [sampleDetShift] rfl rfl sample_transform_eq 0⟩

/-- Claim C10: the Cropped → Original mapping changes only geometry — the
output list has the same length and order as the input, and every output
detection keeps the confidence, class id and class name of its input
detection. -/
theorem C10_geometry_only (dets : List Detection) (ci : CropInfo)
    (out : List Detection)
    (h : transform_coordinates dets ci true = some out) :
    out.length = dets.length ∧
    ∀ i : Nat,
      (out[i]?).map (fun d => (d.confidence, d.class_id, d.class_name)) =
      (dets[i]?).map (fun d => (d.confidence, d.class_id, d.class_name)) := by
  by_cases hs : ci.success = false
  · rw [transform_coordinates, if_pos hs] at h
    simp only [Option.some.injEq] at h
    subst h
    exact ⟨rfl, fun _ => rfl⟩
  · rw [transform_coordinates, if_neg hs] at h
    cases hc : ci.crop_coords with
    | none => rw [hc] at h; exact absurd h (by simp)
    | some q =>
      obtain ⟨cx1, cy1, cx2, cy2⟩ := q
      rw [hc] at h
      obtain ⟨hlen, hget⟩ :=
        traverseDet_spec (transformDet cx1 cy1 ci true) dets out h
      refine ⟨hlen, fun i => ?_⟩
      cases hd : dets[i]? with
      | none =>
        rw [hget i, hd]
        rfl
      | some d =>
        have hi : i < dets.length := (List.getElem?_eq_some.mp hd).1
        have hout : out[i]? = transformDet cx1 cy1 ci true d := by
          rw [hget i, hd]; rfl
        cases hfd : transformDet cx1 cy1 ci true d with
        | none =>
          rw [hfd] at hout
          rw [List.getElem?_eq_getElem (by omega : i < out.length)] at hout
          exact absurd hout (by simp)
        | some d2 =>
          rw [hfd] at hout
          obtain ⟨_, hcf, hid, hnm⟩ := transformDet_fields cx1 cy1 ci d d2 hfd
          rw [hout]
          simp [hcf, hid, hnm]

/-- Witness for C10: transforming a one-detection list leaves confidence,
class id and class name untouched. -/
theorem C10_geometry_only_witness :
    (([sampleDetShift] : List Detection).length = [sampleDet].length) ∧
    ∀ i : Nat,
      ((([sampleDetShift] : List Detection)[i]?).map
        (fun d => (d.confidence, d.class_id, d.class_name)) =
      (([sampleDet] : List Detection)[i]?).map
        (fun d => (d.confidence, d.class_id, d.class_name))) :=
  C10_geometry_only [sampleDet] sampleCropInfo [sampleDetShift]
    sample_transform_eq

/-- Claim C9: a bounding box with `x1 ≤ x2` and `y1 ≤ y2` still satisfies
`x1 ≤ x2` and `y1 ≤ y2` after any space transform performed by
`transform_coordinates` (Cropped → Original translation, keep-cropped
pass-through, or the `success = false` identity). -/
theorem C9_bbox_order_preserved (dets : List Detection) (ci : CropInfo)
    (to_original : Bool) (out : List Detection)
    (h : transform_coordinates dets ci to_original = some out)
    (hnorm : ∀ d ∈ dets, d.bbox.x1 ≤ d.bbox.x2 ∧ d.bbox.y1 ≤ d.bbox.y2) :
    ∀ d ∈ out, d.bbox.x1 ≤ d.bbox.x2 ∧ d.bbox.y1 ≤ d.bbox.y2 := by
  by_cases hs : ci.success = false
  · rw [transform_coordinates, if_pos hs] at h
    simp only [Option.some.injEq] at h
    subst h
    exact hnorm
  · rw [transform_coordinates, if_neg hs] at h
    cases hc : ci.crop_coords with
    | none => rw [hc] at h; exact absurd h (by simp)
    | some q =>
      obtain ⟨cx1, cy1, cx2, cy2⟩ := q
      rw [hc] at h
      obtain ⟨hlen, hget⟩ :=
        traverseDet_spec (transformDet cx1 cy1 ci to_original) dets out h
      intro d hd
      obtain ⟨i, hi⟩ := List.mem_iff_getElem?.mp hd
      have hbind : (dets[i]?).bind (transformDet cx1 cy1 ci to_original) =
          some d := by rw [← hget i, hi]
      cases hd0 : dets[i]? with
      | none => rw [hd0] at hbind; exact absurd hbind (by simp)
      | some d0 =>
        rw [hd0] at hbind
        have hb2 : transformDet cx1 cy1 ci to_original d0 = some d := hbind
        have hmem0 : d0 ∈ dets := mem_of_getElem?_eq_some hd0
        have hn0 := hnorm d0 hmem0
        cases to_original with
        | false =>
          rw [transformDet_false] at hb2
          simp only [Option.some.injEq] at hb2
          subst hb2
          exact hn0
        | true =>
          obtain ⟨hb, _, _, _⟩ :=
            transformDet_fields cx1 cy1 ci d0 d hb2
          rw [hb]
          simp only [transformBBox, cropped_to_original]
          constructor
          · exact add_le_add_right hn0.1 _
          · exact add_le_add_right hn0.2 _

/-- Witness for C9: the normalized box `[0, 0, 10, 10]` stays normalized
after the Cropped → Original translation by `(60, 0)`. -/
theorem C9_bbox_order_preserved_witness :
    sampleDetShift.bbox.x1 ≤ sampleDetShift.bbox.x2 ∧
    sampleDetShift.bbox.y1 ≤ sampleDetShift.bbox.y2 :=
  C9_bbox_order_preserved [sampleDet] sampleCropInfo true [sampleDetShift]
    sample_transform_eq
    (by intro d hd; simp only [List.mem_singleton] at hd; subst hd
        constructor <;> norm_num [sampleDet])
    sampleDetShift (by simp)

theorem transformBBox_comp (cx1 cy1 : Int) (b : BBox) :
    transformBBox cx1 cy1 (transformBBox cx1 cy1 b) =
      transformBBox (2 * cx1) (2 * cy1) b := by
  simp only [transformBBox, cropped_to_original, BBox.mk.injEq]
  refine ⟨?_, ?_, ?_, ?_⟩ <;> push_cast <;> ring

/-- Counterexample to claim C2: `transform_coordinates` applies the
Cropped → Original translation unconditionally.  The Original-space
detection `sampleDetShift` (the image of `sampleDet` under the mapping) is
neither rejected nor left unchanged by a second application: its box
`[60, 0, 70, 10]` is shifted again, to `[120, 0, 130, 10]`. -/
theorem C2_counterexample :
    transform_coordinates [sampleDet] sampleCropInfo true =
      some [sampleDetShift] ∧
    transform_coordinates [sampleDetShift] sampleCropInfo true =
      some [⟨⟨120, 0, 130, 10⟩, 9/10, 0, "eardrum_perforation", none⟩] ∧
    (⟨⟨120, 0, 130, 10⟩, 9/10, 0, "eardrum_perforation", none⟩ : Detection)
      ≠ sampleDetShift := by
  refine ⟨sample_transform_eq, sample_transform_shift_eq, ?_⟩
  intro h
  have hb : (120 : ℚ) = 60 := congrArg (fun d => d.bbox.x1) h
  norm_num at hb

/-- Claim C2 (amended): the Cropped → Original mapping is not idempotent
and performs no rejection or no-op detection — applying it twice to a
detection list translates every bounding box by twice the crop offset, so
callers must not double-map. -/
theorem C2_double_map_shifts_twice (dets out1 out2 : List Detection)
    (ci : CropInfo) (cx1 cy1 cx2 cy2 : Int)
    (hs : ci.success = true) (hc : ci.crop_coords = some (cx1, cy1, cx2, cy2))
    (h1 : transform_coordinates dets ci true = some out1)
    (h2 : transform_coordinates out1 ci true = some out2) :
    ∀ i : Nat, (out2[i]?).map Detection.bbox =
      (dets[i]?).map (fun d => transformBBox (2 * cx1) (2 * cy1) d.bbox) := by
  intro i
  have hA := transform_bbox_map dets ci cx1 cy1 cx2 cy2 out1 hs hc h1
  have hB := transform_bbox_map out1 ci cx1 cy1 cx2 cy2 out2 hs hc h2
  rw [hB i]
  cases hd : dets[i]? with
  | none =>
    have hAi := hA i
    rw [hd] at hAi
    simp only [Option.map_none'] at hAi
    rw [Option.map_eq_none'.mp hAi]
    rfl
  | some d =>
    have hAi := hA i
    rw [hd] at hAi
    simp only [Option.map_some'] at hAi
    obtain ⟨e, he1, he2⟩ := Option.map_eq_some'.mp hAi
    rw [he1]
    simp only [Option.map_some', Option.some.injEq]
    rw [he2, transformBBox_comp]

/-- Witness for the amended C2: mapping `sampleDet` twice through the crop
offset `(60, 0)` lands its box at the translation by `(120, 0)`. -/
theorem C2_double_map_shifts_twice_witness :
    (([⟨⟨120, 0, 130, 10⟩, 9/10, 0, "eardrum_perforation", none⟩] :
        List Detection)[0]?).map Detection.bbox =
      (([sampleDet] : List Detection)[0]?).map
        (fun d => transformBBox (2 * 60) (2 * 0) d.bbox) :=
  C2_double_map_shifts_twice [sampleDet] [sampleDetShift]
    [⟨⟨120, 0, 130, 10⟩, 9/10, 0, "eardrum_perforation", none⟩]
    sampleCropInfo 60 0 1140 1080 rfl rfl sample_transform_eq
    sample_transform_shift_eq 0

theorem buildDetections_eq_filter (t : ℚ)
    (l : List (Candidate × Option Mask)) :
    buildDetections t l =
      (l.filter fun p => decide (t ≤ p.1.conf)).map
        fun p => mkDetection p.1 p.2 := by
  induction l with
  | nil => rfl
  | cons p rest ih =>
    obtain ⟨c, mo⟩ := p
    by_cases hc : c.conf < t
    · simp only [buildDetections, if_pos hc, List.filter_cons, ih]
      rw [if_neg (by simp [not_le.mpr hc])]
    · simp only [buildDetections, if_neg hc, List.filter_cons, ih]
      rw [if_pos (by simp [not_lt.mp hc])]
      rfl

/-- Claim C6: non-max suppression runs against the low internal
visualization threshold `vis_conf_thres` (the `nms` collaborator receives
`vis_conf_thres`, never `conf_thres`), and `conf_thres` is applied
afterwards as a final filter: the returned list is exactly the NMS
survivors with confidence `≥ conf_thres`, in NMS output order, and every
returned detection has confidence `≥ conf_thres`. -/
theorem C6_conf_filter_after_nms
    (nms : ℚ → ℚ → List (Candidate × Option Mask))
    (conf_thres iou_thres vis_conf_thres : ℚ) :
    detect nms conf_thres iou_thres vis_conf_thres =
      ((nms vis_conf_thres iou_thres).filter
          fun p => decide (conf_thres ≤ p.1.conf)).map
        (fun p => mkDetection p.1 p.2) ∧
    ∀ d ∈ detect nms conf_thres iou_thres vis_conf_thres,
      conf_thres ≤ d.confidence := by
  have heq :=
    buildDetections_eq_filter conf_thres (nms vis_conf_thres iou_thres)
  refine ⟨heq, ?_⟩
  intro d hd
  simp only [detect] at hd
  rw [heq] at hd
  obtain ⟨p, hp, rfl⟩ := List.mem_map.mp hd
  have hle := List.of_mem_filter hp
  simpa using hle

/-- The NMS outcome used by the concrete witnesses: two survivors with
confidences 9/10 and 1/10 and no decoded masks. -/
def sampleNMS : ℚ → ℚ → List (Candidate × Option Mask) :=
  fun _ _ => [(⟨0, 0, 1, 1, 9/10, 0⟩, none), (⟨0, 0, 1, 1, 1/10, 1⟩, none)]

/-- Witness for C6: with `conf_thres = 1/4`, the surviving detection built
from the 9/10-confidence candidate has confidence `≥ 1/4`. -/
theorem C6_conf_filter_after_nms_witness :
    (1/4 : ℚ) ≤ (mkDetection ⟨0, 0, 1, 1, 9/10, 0⟩ none).confidence :=
  (C6_conf_filter_after_nms sampleNMS (1/4) (9/20) (1/1000)).2
    (mkDetection ⟨0, 0, 1, 1, 9/10, 0⟩ none)
    (by norm_num [detect, sampleNMS, buildDetections])

/-- A detection with its mask removed, for comparing detection lists up to
masks. -/
def eraseMask (d : Detection) : Detection := { d with mask := none }

/-- Claim C7: a mask-decoding failure is localized.  `mo` assigns each
candidate the outcome of its `try` block (`none` = the decode raised):
changing mask outcomes never changes which candidates are reported, their
order, or any non-mask field, and a candidate above threshold whose mask
decode failed is still reported, with `mask = none`. -/
theorem C7_mask_failure_localized (t : ℚ) (cs : List Candidate)
    (mo mo' : Candidate → Option Mask) :
    ((buildDetections t (cs.map fun c => (c, mo c))).map eraseMask =
      (buildDetections t (cs.map fun c => (c, mo' c))).map eraseMask) ∧
    ∀ c ∈ cs, ¬ c.conf < t →
      mkDetection c (mo c) ∈ buildDetections t (cs.map fun c => (c, mo c)) := by
  constructor
  · induction cs with
    | nil => rfl
    | cons c rest ih =>
      simp only [List.map_cons, buildDetections]
      by_cases hc : c.conf < t
      · rw [if_pos hc, if_pos hc]
        exact ih
      · rw [if_neg hc, if_neg hc]
        simp only [List.map_cons, eraseMask, mkDetection, ih]
  · intro c hmem hconf
    induction cs with
    | nil => simp at hmem
    | cons c0 rest ih =>
      simp only [List.map_cons, buildDetections]
      rcases List.mem_cons.mp hmem with rfl | hm
      · rw [if_neg hconf]
        exact List.mem_cons_self _ _
      · by_cases h0 : c0.conf < t
        · rw [if_pos h0]
          exact ih hm
        · rw [if_neg h0]
          exact List.mem_cons_of_mem _ (ih hm)

/-- Witness for C7: a candidate with confidence 9/10 whose mask decode
failed (`mo = fun _ => none`) is still reported, with no mask. -/
theorem C7_mask_failure_localized_witness :
    mkDetection ⟨0, 0, 1, 1, 9/10, 0⟩
        ((fun _ => (none : Option Mask)) (⟨0, 0, 1, 1, 9/10, 0⟩ : Candidate)) ∈
      buildDetections (1/4)
        (([⟨0, 0, 1, 1, 9/10, 0⟩] : List Candidate).map
          fun c => (c, (fun _ => (none : Option Mask)) c)) :=
  (C7_mask_failure_localized (1/4) [⟨0, 0, 1, 1, 9/10, 0⟩]
      (fun _ => none) (fun _ => some [[1]])).2
    ⟨0, 0, 1, 1, 9/10, 0⟩ (by simp) (by norm_num)

theorem maskH_place_into_zeros (oh ow y1 x1 : Nat) (m : Mask) :
    maskH (place_into_zeros oh ow y1 x1 m) = oh := by
  simp [place_into_zeros, maskH]

theorem maskW_place_into_zeros (oh ow y1 x1 : Nat) (m : Mask)
    (h : 0 < oh) : maskW (place_into_zeros oh ow y1 x1 m) = ow := by
  obtain ⟨n, rfl⟩ := Nat.exists_eq_succ_of_ne_zero h.ne'
  simp [place_into_zeros, maskW, List.range_succ_eq_map]

theorem maskGet_place_into_zeros (oh ow y1 x1 : Nat) (m : Mask)
    {r c : Nat} (hr : r < oh) (hc : c < ow) :
    maskGet (place_into_zeros oh ow y1 x1 m) r c =
      if y1 ≤ r ∧ r < y1 + maskH m ∧ x1 ≤ c ∧ c < x1 + maskW m then
        maskGet m (r - y1) (c - x1)
      else 0 := by
  unfold maskGet place_into_zeros
  rw [getD_range_map _ _ hr, getD_range_map _ _ hc]
  rfl

theorem maskH_nnResize (m : Mask) (newW newH : Nat) :
    maskH (nnResize m newW newH) = newH := by
  simp [nnResize, maskH]

theorem maskW_nnResize (m : Mask) (newW newH : Nat) (h : 0 < newH) :
    maskW (nnResize m newW newH) = newW := by
  obtain ⟨n, rfl⟩ := Nat.exists_eq_succ_of_ne_zero h.ne'
  simp [nnResize, maskW, List.range_succ_eq_map]

theorem maskH_resizedIfNeeded_eq (m : Mask) (ch cw : Nat) :
    maskH (resizedIfNeeded m ch cw) = ch := by
  unfold resizedIfNeeded
  split
  next h => exact h.1
  next => exact maskH_nnResize m cw ch

theorem maskW_resizedIfNeeded_eq (m : Mask) (ch cw : Nat) (hch : 0 < ch) :
    maskW (resizedIfNeeded m ch cw) = cw := by
  unfold resizedIfNeeded
  split
  next h => exact h.2
  next => exact maskW_nnResize m cw ch hch

/-- Claim C5: when a detection's mask is mapped to Original space, a
zero-filled Original-sized grid is allocated and the Cropped-space mask is
copied into the rectangle whose corner is the crop offset; a mask whose
stored size differs from `cropped_shape` is first resized to
`(crop_w, crop_h)` with nearest-neighbour sampling (`resizedIfNeeded`)
before placement — it is never placed unresized.  The placed grid has the
Original extents, carries the (resized) mask inside the crop window and
zero outside it. -/
theorem C5_mask_placed_into_zero_canvas (ci : CropInfo) (det : Detection)
    (m : Mask) (cx1 cy1 : Int) (oh ow ch cw : Nat)
    (hm : det.mask = some m) (hmh : 0 < maskH m) (hmw : 0 < maskW m)
    (ho : ci.original_shape = some (oh, ow))
    (hcs : ci.cropped_shape = some (ch, cw))
    (hch : 0 < ch)
    (hy : 0 ≤ cy1) (hx : 0 ≤ cx1)
    (hfity : cy1.toNat + ch ≤ oh) (hfitx : cx1.toNat + cw ≤ ow) :
    transformDet cx1 cy1 ci true det =
      some { det with
        bbox := transformBBox cx1 cy1 det.bbox
        mask := some (place_into_zeros oh ow cy1.toNat cx1.toNat
          (resizedIfNeeded m ch cw)) } ∧
    maskH (place_into_zeros oh ow cy1.toNat cx1.toNat
      (resizedIfNeeded m ch cw)) = oh ∧
    maskW (place_into_zeros oh ow cy1.toNat cx1.toNat
      (resizedIfNeeded m ch cw)) = ow ∧
    (∀ r c : Nat, r < oh → c < ow →
      maskGet (place_into_zeros oh ow cy1.toNat cx1.toNat
          (resizedIfNeeded m ch cw)) r c =
        if cy1.toNat ≤ r ∧ r < cy1.toNat + ch ∧
            cx1.toNat ≤ c ∧ c < cx1.toNat + cw then
          maskGet (resizedIfNeeded m ch cw) (r - cy1.toNat) (c - cx1.toNat)
        else 0) ∧
    (¬(maskH m = ch ∧ maskW m = cw) →
      resizedIfNeeded m ch cw = nnResize m cw ch) := by
  have hm2h : maskH (resizedIfNeeded m ch cw) = ch :=
    maskH_resizedIfNeeded_eq m ch cw
  have hm2w : maskW (resizedIfNeeded m ch cw) = cw :=
    maskW_resizedIfNeeded_eq m ch cw hch
  have hplace : place_mask_np oh ow cy1 cx1 (resizedIfNeeded m ch cw) =
      some (place_into_zeros oh ow cy1.toNat cx1.toNat
        (resizedIfNeeded m ch cw)) := by
    unfold place_mask_np
    rw [hm2h, hm2w, if_pos ⟨hy, hx, hfity, hfitx⟩]
  refine ⟨?_, maskH_place_into_zeros _ _ _ _ _,
    maskW_place_into_zeros _ _ _ _ _ (by omega), ?_, ?_⟩
  · simp only [transformDet, hm, ho, hcs, hplace, if_pos]
    rw [if_pos ⟨hmh, hmw⟩]
  · intro r c hr hc
    rw [maskGet_place_into_zeros _ _ _ _ _ hr hc, hm2h, hm2w]
  · intro hne
    unfold resizedIfNeeded
    rw [if_neg hne]

/-- A detection carrying a 1×1 mask whose size differs from the declared
cropped shape (2×2), used by the C5 witness. -/
def c5det : Detection := ⟨⟨0, 0, 1, 1⟩, 9/10, 0, "eardrum_perforation",
  some [[1]]⟩

/-- A successful crop whose cropped shape is 2×2 inside a 2×4 original,
with crop offset `(1, 0)`, used by the C5 witness. -/
def c5info : CropInfo := ⟨true, (0, 0), 300, some (1, 0, 3, 2),
  some (2, 4), some (2, 2)⟩

/-- Witness for C5: the 1×1 mask of `c5det` is resized (nearest-neighbour)
to the 2×2 cropped shape and placed at offset `(1, 0)` into a zero 2×4
canvas. -/
theorem C5_mask_placed_into_zero_canvas_witness :
    transformDet 1 0 c5info true c5det =
      some { c5det with
        bbox := transformBBox 1 0 c5det.bbox
        mask := some (place_into_zeros 2 4 0 1
          (resizedIfNeeded [[1]] 2 2)) } :=
  (C5_mask_placed_into_zero_canvas c5info c5det [[1]] 1 0 2 4 2 2
    rfl (by decide) (by decide) rfl rfl (by decide) (by decide) (by decide)
    (by decide) (by decide)).1

end IEarLM
